import Mathlib

/-!
Verification of the route53 connector: a shallow embedding of its Go source
(`main.go` and the event envelope file) in Lean 4, with theorems checking the
natural-language specification against the embedded code.

Conventions of the embedding:
* Go strings are Lean `String`s.  The Go expression `entry[len(entry)-1]`
  indexes a byte and panics on an empty string; every function that can panic
  is embedded as an `Option`/partial result, `none` meaning a runtime panic.
* External collaborators (the AWS route53 client, the NATS connection and
  `encoding/json`) are oracles passed in as structures of response functions;
  the provider calls issued and the messages published are returned as traces.
* Machine integers (the record TTL, `int64` in Go) carry no arithmetic in this
  program and are embedded as `Int`.
-/

set_option maxHeartbeats 1000000

namespace Route53

/-- Record stores the entries for a zone (Go struct `Record`). -/
structure Record where
  entry : String
  type : String
  values : List String
  ttl : Int
deriving DecidableEq, Repr

/-- Records stores a collection of records (Go type `Records []Record`). -/
abbrev Records := List Record

/-- Event stores the route53 data (Go struct `Event`).  The Go field `Private`
is embedded as `priv` (`private` is a Lean keyword); `action` is the
unexported, non-wire field set from the routing key. -/
structure Event where
  uuid : String
  batchID : String
  providerType : String
  hostedZoneID : String
  name : String
  priv : Bool
  records : Records
  vpcID : String
  datacenterName : String
  datacenterRegion : String
  datacenterToken : String
  datacenterSecret : String
  errorMessage : String
  action : String
deriving DecidableEq, Repr

/-- The zero value of the Go `Event` struct (`var e Event`). -/
def zeroEvent : Event :=
  { uuid := "", batchID := "", providerType := "", hostedZoneID := "", name := ""
    priv := false, records := [], vpcID := "", datacenterName := ""
    datacenterRegion := "", datacenterToken := "", datacenterSecret := ""
    errorMessage := "", action := "" }

/-- Go `entryName`: strips one trailing dot.  The Go code reads the last byte
`entry[len(entry)-1]` with no emptiness guard, so the empty string panics
(index out of range): embedded as `none`.  For valid UTF-8 the last byte is
`'.'` exactly when the last character is, and `entry[:len(entry)-1]` then
drops that one-byte character, so the byte test is embedded as a test on the
last character. -/
def entryName? (entry : String) : Option String :=
  match entry.toList.getLast? with
  | none => none
  | some c =>
    if c = '.' then some (String.mk entry.toList.dropLast) else some entry

/-- Go `(r Records) HasRecord(entry string) bool`: true when some record's
normalized entry equals the normalized argument.  Each loop iteration
normalizes both sides, so an empty string on either side panics there;
with an empty collection nothing is normalized and `false` is returned. -/
def Records.HasRecord (r : Records) (entry : String) : Option Bool :=
  match r with
  | [] => some false
  | record :: rest =>
    match entryName? record.entry, entryName? entry with
    | some a, some b => if a = b then some true else Records.HasRecord rest entry
    | _, _ => none

/-- One value of an AWS resource record (Go `route53.ResourceRecord`). -/
structure ResourceRecord where
  value : String
deriving DecidableEq, Repr

/-- An AWS record set (Go `route53.ResourceRecordSet`), restricted to the
fields this program reads and writes. -/
structure ResourceRecordSet where
  name : String
  type : String
  ttl : Int
  resourceRecords : List ResourceRecord
deriving DecidableEq, Repr

/-- A change of the change batch (Go `route53.Change`). -/
structure Change where
  action : String
  resourceRecordSet : ResourceRecordSet
deriving DecidableEq, Repr

/-- Go `buildResourceRecords`: wraps each value string. -/
def buildResourceRecords (values : List String) : List ResourceRecord :=
  values.map (fun v => { value := v })

/-- Go `isDefaultRule`: the record is an SOA or NS record whose normalized
name equals the normalized zone name.  Both names are normalized before the
type is inspected, so an empty name on either side panics (`none`). -/
def isDefaultRule (name : String) (record : ResourceRecordSet) : Option Bool :=
  match entryName? record.name, entryName? name with
  | some rn, some zn =>
    some ((rn = zn && record.type = "SOA") || (rn = zn && record.type = "NS"))
  | _, _ => none

/-- Go `buildRecordsToRemove`: one DELETE change per existing record that is
neither matched by name in the desired set nor a default (apex SOA/NS) rule.
The Go condition `HasRecord(...) != true && isDefaultRule(...) != true`
short-circuits, so `isDefaultRule` is not evaluated when `HasRecord` is true. -/
def buildRecordsToRemove (ev : Event) (existing : List ResourceRecordSet) :
    Option (List Change) :=
  match existing with
  | [] => some []
  | recordSet :: rest =>
    match Records.HasRecord ev.records recordSet.name with
    | none => none
    | some true => buildRecordsToRemove ev rest
    | some false =>
      match isDefaultRule ev.name recordSet with
      | none => none
      | some true => buildRecordsToRemove ev rest
      | some false =>
        match buildRecordsToRemove ev rest with
        | none => none
        | some tail => some ({ action := "DELETE", resourceRecordSet := recordSet } :: tail)

/-- The UPSERT change Go `buildChanges` constructs for one desired record:
a full record replacement carrying name, type, TTL and all values. -/
def upsertChange (record : Record) : Change :=
  { action := "UPSERT"
    resourceRecordSet :=
      { name := record.entry, type := record.type, ttl := record.ttl
        resourceRecords := buildResourceRecords record.values } }

/-- Go `buildChanges`: one UPSERT per desired record in input order, then the
DELETE changes from `buildRecordsToRemove` appended. -/
def buildChanges (ev : Event) (existing : List ResourceRecordSet) :
    Option (List Change) :=
  match buildRecordsToRemove ev existing with
  | none => none
  | some missing => some (ev.records.map upsertChange ++ missing)

/-- The boolean deletion test of `buildRecordsToRemove`, phrased on the
partial results: delete exactly when `HasRecord` returned `false` and
`isDefaultRule` returned `false`. -/
def shouldDelete (ev : Event) (rs : ResourceRecordSet) : Bool :=
  decide (Records.HasRecord ev.records rs.name = some false)
    && decide (isDefaultRule ev.name rs = some false)

/-- Go `(ev *Event) Validate() error`: four checks in fixed order, first
failure returned; `none` means valid.  Errors are embedded by their Go
message text. -/
def Event.Validate (ev : Event) : Option String :=
  if ev.vpcID = "" then some "Datacenter VPC ID invalid"
  else if ev.datacenterRegion = "" then some "Datacenter Region invalid"
  else if ev.datacenterSecret = "" ∨ ev.datacenterToken = "" then
    some "Datacenter credentials invalid"
  else if ev.name = "" then some "Route53 zone name invalid"
  else none

/-- A request issued to the AWS route53 provider (the argument values the Go
code passes to the client calls this program observes). -/
inductive Request where
  | listResourceRecordSets (zoneID : String)
  | changeResourceRecordSets (zoneID : String) (changes : List Change)
  | createHostedZone (name : String) (priv : Bool)
  | deleteHostedZone (zoneID : String)
deriving DecidableEq, Repr

/-- The AWS route53 collaborator, as a pure oracle of responses keyed by the
request arguments.  Errors are embedded by their message text. -/
structure Provider where
  listResourceRecordSets : String → Except String (List ResourceRecordSet)
  changeResourceRecordSets : String → List Change → Except String Unit
  createHostedZone : String → Except String String
  deleteHostedZone : String → Except String Unit

/-- Go `getZoneRecords`: lists the record sets of the event's hosted zone. -/
def getZoneRecords (p : Provider) (ev : Event) :
    Except String (List ResourceRecordSet) :=
  p.listResourceRecordSets ev.hostedZoneID

/-- Result of one lifecycle transition: the event after its mutations, the
provider requests issued in order, and the returned error if any; `none`
for the whole result means a runtime panic inside `buildChanges`. -/
abbrev TransitionResult := Event × List Request × Option String

/-- Go `updateRoute53`: list the zone's records, build the change batch, and
submit it; abort on the first provider error. -/
def updateRoute53 (p : Provider) (ev : Event) : Option TransitionResult :=
  match getZoneRecords p ev with
  | .error e => some (ev, [Request.listResourceRecordSets ev.hostedZoneID], some e)
  | .ok zr =>
    match buildChanges ev zr with
    | none => none
    | some cs =>
      match p.changeResourceRecordSets ev.hostedZoneID cs with
      | .error e =>
        some (ev, [Request.listResourceRecordSets ev.hostedZoneID,
                   Request.changeResourceRecordSets ev.hostedZoneID cs], some e)
      | .ok _ =>
        some (ev, [Request.listResourceRecordSets ev.hostedZoneID,
                   Request.changeResourceRecordSets ev.hostedZoneID cs], none)

/-- Go `createRoute53`: ask the provider to create the hosted zone (a private
zone request carries the VPC association), store the returned zone id into
the event, and run the update transition with it.  On a create error the
event is returned unchanged and no further request is issued. -/
def createRoute53 (p : Provider) (ev : Event) : Option TransitionResult :=
  match p.createHostedZone ev.name with
  | .error e => some (ev, [Request.createHostedZone ev.name ev.priv], some e)
  | .ok zid =>
    match updateRoute53 p { ev with hostedZoneID := zid } with
    | none => none
    | some (ev2, reqs, r) =>
      some (ev2, Request.createHostedZone ev.name ev.priv :: reqs, r)

/-- Go `deleteRoute53`: clear the desired record set (`ev.Records = nil`), run
the update transition to drain the zone, and only when it succeeded ask the
provider to delete the hosted zone. -/
def deleteRoute53 (p : Provider) (ev : Event) : Option TransitionResult :=
  match updateRoute53 p { ev with records := [] } with
  | none => none
  | some (ev2, reqs, some e) => some (ev2, reqs, some e)
  | some (ev2, reqs, none) =>
    match p.deleteHostedZone ev2.hostedZoneID with
    | .error e => some (ev2, reqs ++ [Request.deleteHostedZone ev2.hostedZoneID], some e)
    | .ok _ => some (ev2, reqs ++ [Request.deleteHostedZone ev2.hostedZoneID], none)

/-- Go `strings.Split(s, ".")`, on the character list of the subject: split
at every dot, empty segments preserved (the separator `"."` is one ASCII
byte, so the byte-level Go split coincides with this character-level one). -/
def splitOnDots (cs : List Char) : List (List Char) :=
  match cs with
  | [] => [[]]
  | c :: rest =>
    match splitOnDots rest with
    | [] => [[]]
    | g :: gs => if c = '.' then [] :: g :: gs else (c :: g) :: gs

/-- The Go expression `strings.Split(subject, ".")[1]`, used both by
`Event.Process` and by `eventHandler`'s dispatch switch; the index panics
(`none`) when the subject holds no dot. -/
def secondSegment? (subject : String) : Option String :=
  ((splitOnDots subject.toList).get? 1).map String.mk

/-- Raw payload bytes of a NATS message. -/
abbrev Bytes := List Nat

/-- One message published on the NATS connection: subject and body bytes. -/
structure PubMsg where
  subject : String
  body : Bytes
deriving DecidableEq, Repr

/-- The `encoding/json` collaborator: `unmarshal` merges the payload into an
existing event (Go `json.Unmarshal(data, &ev)`), `marshal` serializes one;
each may fail with an error message. -/
structure Codec where
  unmarshalEvent : Bytes → Event → Except String Event
  marshalEvent : Event → Except String Bytes

/-- Go `(ev *Event) Process(subject, data)`: store the second dot-delimited
segment of the routing key as the action (the Go index `[1]` panics when the
subject has no dot: `none`), then unmarshal; on a decode error publish the
raw payload to the error subject and return the error. -/
def Event.Process (c : Codec) (subject : String) (data : Bytes) (ev : Event) :
    Option (Event × List PubMsg × Option String) :=
  match secondSegment? subject with
  | none => none
  | some act =>
    let ev1 : Event := { ev with action := act }
    match c.unmarshalEvent data ev1 with
    | .error e =>
      some (ev1, [{ subject := "route53." ++ ev1.action ++ ".aws.error", body := data }], some e)
    | .ok ev2 => some (ev2, [], none)

/-- Go `(ev *Event) Error(err)`: set the error message, marshal the event and
publish it to the error subject.  A marshal failure is `log.Panic`: the
process dies, embedded as `none`. -/
def Event.Error (c : Codec) (ev : Event) (errMsg : String) :
    Option (Event × List PubMsg) :=
  let ev2 : Event := { ev with errorMessage := errMsg }
  match c.marshalEvent ev2 with
  | .error _ => none
  | .ok d =>
    some (ev2, [{ subject := "route53." ++ ev2.action ++ ".aws.error", body := d }])

/-- Go `(ev *Event) Complete()`: marshal the event; on failure run the error
path, then publish to the done subject regardless (with the nil data of the
failed marshal, embedded as the empty byte list). -/
def Event.Complete (c : Codec) (ev : Event) : Option (Event × List PubMsg) :=
  match c.marshalEvent ev with
  | .error e =>
    match Event.Error c ev e with
    | none => none
    | some (ev2, msgs) =>
      some (ev2, msgs ++ [{ subject := "route53." ++ ev.action ++ ".aws.done", body := [] }])
  | .ok d =>
    some (ev, [{ subject := "route53." ++ ev.action ++ ".aws.done", body := d }])

/-- Go `eventHandler`: process the raw message (returning on a decode error),
validate (publishing an error outcome on failure), dispatch on the second
routing-key segment to the matching transition, then report the outcome.
Result: messages published and provider requests issued; `none` is a panic. -/
def eventHandler (c : Codec) (p : Provider) (subject : String) (data : Bytes) :
    Option (List PubMsg × List Request) :=
  match Event.Process c subject data zeroEvent with
  | none => none
  | some (_, msgs, some _) => some (msgs, [])
  | some (ev, msgs, none) =>
    match Event.Validate ev with
    | some verr =>
      match Event.Error c ev verr with
      | none => none
      | some (_, emsgs) => some (msgs ++ emsgs, [])
    | none =>
      let step : Option TransitionResult :=
        match secondSegment? subject with
        | some "create" => createRoute53 p ev
        | some "update" => updateRoute53 p ev
        | some "delete" => deleteRoute53 p ev
        | _ => some (ev, [], none)
      match step with
      | none => none
      | some (ev2, reqs, some e) =>
        match Event.Error c ev2 e with
        | none => none
        | some (_, emsgs) => some (msgs ++ emsgs, reqs)
      | some (ev2, reqs, none) =>
        match Event.Complete c ev2 with
        | none => none
        | some (_, dmsgs) => some (msgs ++ dmsgs, reqs)

/-- A JSON value, the level at which the `encoding/json` struct tags of
`Event` and `Record` are modelled (string, bool, integral number, array,
object as an ordered field list). -/
inductive JValue where
  | jnull
  | jstr (s : String)
  | jbool (b : Bool)
  | jint (n : Int)
  | jarr (vs : List JValue)
  | jobj (fields : List (String × JValue))

/-- A JSON object: an ordered list of fields. -/
abbrev JObject := List (String × JValue)

/-- Marshalling of one `Record` per its struct tags: keys `entry`, `type`,
`values`, `ttl`, in field order, none optional. -/
def marshalRecordJ (r : Record) : JValue :=
  JValue.jobj
    [("entry", JValue.jstr r.entry),
     ("type", JValue.jstr r.type),
     ("values", JValue.jarr (r.values.map JValue.jstr)),
     ("ttl", JValue.jint r.ttl)]

/-- Marshalling of an `Event` per its struct tags, in Go field order:
`datacenter_name` and `error_message` carry `omitempty` and are dropped when
empty; the unexported `action` field is never emitted. -/
def marshalEventJ (ev : Event) : JObject :=
  [("_uuid", JValue.jstr ev.uuid),
   ("_batch_id", JValue.jstr ev.batchID),
   ("_type", JValue.jstr ev.providerType),
   ("hosted_zone_id", JValue.jstr ev.hostedZoneID),
   ("name", JValue.jstr ev.name),
   ("private", JValue.jbool ev.priv),
   ("records", JValue.jarr (ev.records.map marshalRecordJ)),
   ("vpc_id", JValue.jstr ev.vpcID)]
  ++ (if ev.datacenterName = "" then []
      else [("datacenter_name", JValue.jstr ev.datacenterName)])
  ++ [("datacenter_region", JValue.jstr ev.datacenterRegion),
      ("datacenter_token", JValue.jstr ev.datacenterToken),
      ("datacenter_secret", JValue.jstr ev.datacenterSecret)]
  ++ (if ev.errorMessage = "" then []
      else [("error_message", JValue.jstr ev.errorMessage)])

/-- Decode one element of a `values` array: a JSON string. -/
def unmarshalValueJ (v : JValue) : Option String :=
  match v with
  | JValue.jstr s => some s
  | _ => none

/-- Decode a `values` array elementwise, failing on the first bad element. -/
def unmarshalValuesJ (vs : List JValue) : Option (List String) :=
  match vs with
  | [] => some []
  | v :: rest =>
    match unmarshalValueJ v with
    | none => none
    | some s =>
      match unmarshalValuesJ rest with
      | none => none
      | some ss => some (s :: ss)

/-- Apply one JSON object field to a `Record` (Go unmarshalling merges field
by field, later duplicates overriding; `null` is a no-op; a wrongly typed
value is a decode error; unknown keys are ignored). -/
def setRecordField (r : Record) : String × JValue → Option Record
  | ("entry", JValue.jstr s) => some { r with entry := s }
  | ("entry", JValue.jnull) => some r
  | ("entry", _) => none
  | ("type", JValue.jstr s) => some { r with type := s }
  | ("type", JValue.jnull) => some r
  | ("type", _) => none
  | ("values", JValue.jarr vs) =>
    match unmarshalValuesJ vs with
    | some ss => some { r with values := ss }
    | none => none
  | ("values", JValue.jnull) => some r
  | ("values", _) => none
  | ("ttl", JValue.jint n) => some { r with ttl := n }
  | ("ttl", JValue.jnull) => some r
  | ("ttl", _) => none
  | (_, _) => some r

/-- The zero value of the Go `Record` struct. -/
def zeroRecord : Record := { entry := "", type := "", values := [], ttl := 0 }

/-- Decode one element of the `records` array into a fresh `Record`. -/
def unmarshalRecordJ (v : JValue) : Option Record :=
  match v with
  | JValue.jobj fs => fs.foldlM setRecordField zeroRecord
  | JValue.jnull => some zeroRecord
  | _ => none

/-- Decode a `records` array elementwise, failing on the first bad element. -/
def unmarshalRecordsJ (vs : List JValue) : Option (List Record) :=
  match vs with
  | [] => some []
  | v :: rest =>
    match unmarshalRecordJ v with
    | none => none
    | some r =>
      match unmarshalRecordsJ rest with
      | none => none
      | some rs => some (r :: rs)

/-- Apply one JSON object field to an `Event`; the unexported `action` field
has no tag, so an `action` key falls into the ignored-key case. -/
def setEventField (ev : Event) : String × JValue → Option Event
  | ("_uuid", JValue.jstr s) => some { ev with uuid := s }
  | ("_uuid", JValue.jnull) => some ev
  | ("_uuid", _) => none
  | ("_batch_id", JValue.jstr s) => some { ev with batchID := s }
  | ("_batch_id", JValue.jnull) => some ev
  | ("_batch_id", _) => none
  | ("_type", JValue.jstr s) => some { ev with providerType := s }
  | ("_type", JValue.jnull) => some ev
  | ("_type", _) => none
  | ("hosted_zone_id", JValue.jstr s) => some { ev with hostedZoneID := s }
  | ("hosted_zone_id", JValue.jnull) => some ev
  | ("hosted_zone_id", _) => none
  | ("name", JValue.jstr s) => some { ev with name := s }
  | ("name", JValue.jnull) => some ev
  | ("name", _) => none
  | ("private", JValue.jbool b) => some { ev with priv := b }
  | ("private", JValue.jnull) => some ev
  | ("private", _) => none
  | ("records", JValue.jarr vs) =>
    match unmarshalRecordsJ vs with
    | some rs => some { ev with records := rs }
    | none => none
  | ("records", JValue.jnull) => some ev
  | ("records", _) => none
  | ("vpc_id", JValue.jstr s) => some { ev with vpcID := s }
  | ("vpc_id", JValue.jnull) => some ev
  | ("vpc_id", _) => none
  | ("datacenter_name", JValue.jstr s) => some { ev with datacenterName := s }
  | ("datacenter_name", JValue.jnull) => some ev
  | ("datacenter_name", _) => none
  | ("datacenter_region", JValue.jstr s) => some { ev with datacenterRegion := s }
  | ("datacenter_region", JValue.jnull) => some ev
  | ("datacenter_region", _) => none
  | ("datacenter_token", JValue.jstr s) => some { ev with datacenterToken := s }
  | ("datacenter_token", JValue.jnull) => some ev
  | ("datacenter_token", _) => none
  | ("datacenter_secret", JValue.jstr s) => some { ev with datacenterSecret := s }
  | ("datacenter_secret", JValue.jnull) => some ev
  | ("datacenter_secret", _) => none
  | ("error_message", JValue.jstr s) => some { ev with errorMessage := s }
  | ("error_message", JValue.jnull) => some ev
  | ("error_message", _) => none
  | (_, _) => some ev

/-- Unmarshal a JSON object into an existing `Event`, merging field by field
in order (Go `json.Unmarshal` semantics at the object level). -/
def unmarshalEventJ (fields : JObject) (ev : Event) : Option Event :=
  fields.foldlM setEventField ev

/-- Whether a JSON object carries a key. -/
def hasKey (fields : JObject) (k : String) : Bool :=
  fields.any (fun f => f.1 = k)

/-! ### Helper lemmas about normalization and the reconciler -/

lemma toList_eq_nil_iff (s : String) : s.toList = [] ↔ s = "" := by
  constructor
  · intro h
    have : String.mk s.toList = String.mk [] := by rw [h]
    simpa using this
  · intro h
    simp [h]

lemma entryName?_eq_none_iff (s : String) : entryName? s = none ↔ s = "" := by
  unfold entryName?
  rcases h : s.toList.getLast? with _ | c
  · simp only [List.getLast?_eq_none_iff] at h
    simp [toList_eq_nil_iff s |>.mp h]
  · have hne : s ≠ "" := by
      intro hs
      rw [hs] at h
      simp at h
    constructor
    · intro hcontra
      by_cases hc : c = '.' <;> simp [hc] at hcontra
    · intro hs
      exact absurd hs hne

lemma entryName?_isSome (s : String) (h : s ≠ "") : ∃ t, entryName? s = some t := by
  rcases he : entryName? s with _ | t
  · exact absurd ((entryName?_eq_none_iff s).mp he) h
  · exact ⟨t, rfl⟩

lemma hasRecord_eq (rl : Records) (entry : String) (he : entry ≠ "")
    (hr : ∀ r ∈ rl, r.entry ≠ "") :
    Records.HasRecord rl entry =
      some (rl.any fun record => entryName? record.entry == entryName? entry) := by
  induction rl with
  | nil => simp [Records.HasRecord]
  | cons record rest ih =>
    obtain ⟨a, ha⟩ := entryName?_isSome record.entry (hr record (by simp))
    obtain ⟨b, hb⟩ := entryName?_isSome entry he
    have ih' := ih (fun r hmem => hr r (by simp [hmem]))
    unfold Records.HasRecord
    rw [ha, hb]
    by_cases hab : a = b
    · simp [hab, ha, hb]
    · simp only [if_neg hab, ih', ha, hb, List.any_cons]
      have : (some a == some b) = false := by simp [hab]
      rw [this, Bool.false_or]

lemma hasRecord_false_iff (rl : Records) (entry : String) (he : entry ≠ "")
    (hr : ∀ r ∈ rl, r.entry ≠ "") :
    Records.HasRecord rl entry = some false ↔
      ¬ ∃ r ∈ rl, entryName? r.entry = entryName? entry := by
  rw [hasRecord_eq rl entry he hr]
  simp [List.any_eq_true]

lemma isDefaultRule_eq (name : String) (rs : ResourceRecordSet) (hn : name ≠ "")
    (hrn : rs.name ≠ "") :
    isDefaultRule name rs =
      some ((entryName? rs.name == entryName? name)
        && (decide (rs.type = "SOA") || decide (rs.type = "NS"))) := by
  obtain ⟨rn, hrn'⟩ := entryName?_isSome rs.name hrn
  obtain ⟨zn, hzn⟩ := entryName?_isSome name hn
  unfold isDefaultRule
  rw [hrn', hzn]
  by_cases hd : rn = zn
  · subst hd
    simp [hrn', hzn, Bool.and_or_distrib_left]
  · simp [hd, hrn', hzn]

lemma isDefaultRule_false_iff (name : String) (rs : ResourceRecordSet) (hn : name ≠ "")
    (hrn : rs.name ≠ "") :
    isDefaultRule name rs = some false ↔
      ¬ (entryName? rs.name = entryName? name ∧ (rs.type = "SOA" ∨ rs.type = "NS")) := by
  rw [isDefaultRule_eq name rs hn hrn]
  simp [not_and_or]

/-- The filter/map characterization of `buildRecordsToRemove` under the
no-panic precondition: every relevant name non-empty. -/
lemma buildRecordsToRemove_filter_eq (ev : Event) (existing : List ResourceRecordSet)
    (hname : ev.name ≠ "") (hrecs : ∀ r ∈ ev.records, r.entry ≠ "")
    (hex : ∀ rs ∈ existing, rs.name ≠ "") :
    buildRecordsToRemove ev existing =
      some ((existing.filter (shouldDelete ev)).map
        (fun rs => { action := "DELETE", resourceRecordSet := rs })) := by
  induction existing with
  | nil => simp [buildRecordsToRemove]
  | cons rs rest ih =>
    have hrsname : rs.name ≠ "" := hex rs (by simp)
    have ih' := ih (fun x hmem => hex x (by simp [hmem]))
    have hhr := hasRecord_eq ev.records rs.name hrsname hrecs
    unfold buildRecordsToRemove
    rw [hhr]
    rcases hb : (ev.records.any fun record => entryName? record.entry == entryName? rs.name) with _ | _
    · rw [isDefaultRule_eq ev.name rs hname hrsname]
      rcases hd : ((entryName? rs.name == entryName? ev.name)
          && (decide (rs.type = "SOA") || decide (rs.type = "NS"))) with _ | _
      · rw [ih']
        have hsd : shouldDelete ev rs = true := by
          unfold shouldDelete
          rw [hhr, hb, isDefaultRule_eq ev.name rs hname hrsname, hd]
          simp
        simp [List.filter_cons, hsd]
      · rw [ih']
        have hsd : shouldDelete ev rs = false := by
          unfold shouldDelete
          rw [isDefaultRule_eq ev.name rs hname hrsname, hd]
          simp
        simp [List.filter_cons, hsd]
    · rw [ih']
      have hsd : shouldDelete ev rs = false := by
        unfold shouldDelete
        rw [hhr, hb]
        simp
      simp [List.filter_cons, hsd]

/-- The delete list is a sublist of the existing records mapped to DELETE
changes, so its relative order follows the remote listing order. -/
lemma buildRecordsToRemove_sublist (ev : Event) (existing : List ResourceRecordSet)
    (dels : List Change) (h : buildRecordsToRemove ev existing = some dels) :
    List.Sublist dels (existing.map
      (fun rs => { action := "DELETE", resourceRecordSet := rs })) := by
  induction existing generalizing dels with
  | nil =>
    unfold buildRecordsToRemove at h
    simp_all
  | cons rs rest ih =>
    unfold buildRecordsToRemove at h
    rcases hhr : Records.HasRecord ev.records rs.name with _ | b
    · rw [hhr] at h; exact absurd h (by simp)
    · rw [hhr] at h
      rcases b with _ | _
      · rcases hdr : isDefaultRule ev.name rs with _ | d
        · rw [hdr] at h; exact absurd h (by simp)
        · rw [hdr] at h
          rcases d with _ | _
          · rcases htl : buildRecordsToRemove ev rest with _ | tail
            · rw [htl] at h; exact absurd h (by simp)
            · rw [htl] at h
              simp only [Option.some.injEq] at h
              subst h
              exact List.Sublist.cons₂ _ (ih tail htl)
          · exact List.Sublist.cons _ (ih dels h)
      · exact List.Sublist.cons _ (ih dels h)

/-! ### Concrete fixtures used by the witnesses -/

/-- Default apex SOA record of the scenario zone. -/
def soaApex : ResourceRecordSet :=
  { name := "test.com.", type := "SOA", ttl := 3600, resourceRecords := [] }

/-- Default apex NS record of the scenario zone. -/
def nsApex : ResourceRecordSet :=
  { name := "test.com.", type := "NS", ttl := 3600,
    resourceRecords := [{ value := "ns1.aws.example" }] }

/-- A plain A record of the scenario zone. -/
def wwwRecordSet : ResourceRecordSet :=
  { name := "www.test.com.", type := "A", ttl := 300,
    resourceRecords := [{ value := "1.2.3.4" }] }

/-- Delete-scenario command: zone `test.com`, empty desired set. -/
def drainEvent : Event := { zeroEvent with name := "test.com" }

/-- A desired A record. -/
def apiRecord : Record :=
  { entry := "api.test.com", type := "A", values := ["1.1.1.1"], ttl := 60 }

/-- Create-scenario command: zone `test.com`, one desired A record. -/
def provisionEvent : Event := { zeroEvent with name := "test.com", records := [apiRecord] }

/-! ### Claim theorems -/

/-- C1: `buildRecordsToRemove` emits a Delete change for a remote record
exactly when no desired record matches it by normalized name (the type is not
compared) and the record is not protected, i.e. not an SOA or NS record whose
normalized name equals the normalized zone name; in particular apex SOA/NS
records are never deleted, even with an empty desired set.  (Stated under the
no-panic precondition that the zone name and all record names are
non-empty.) -/
theorem buildRecordsToRemove_delete_iff (ev : Event) (existing : List ResourceRecordSet)
    (hname : ev.name ≠ "") (hrecs : ∀ r ∈ ev.records, r.entry ≠ "")
    (hex : ∀ rs ∈ existing, rs.name ≠ "") :
    buildRecordsToRemove ev existing =
      some ((existing.filter (shouldDelete ev)).map
        (fun rs => { action := "DELETE", resourceRecordSet := rs }))
    ∧ (∀ rs ∈ existing,
        (shouldDelete ev rs = true ↔
          (¬ ∃ r ∈ ev.records, entryName? r.entry = entryName? rs.name)
          ∧ ¬ (entryName? rs.name = entryName? ev.name
                ∧ (rs.type = "SOA" ∨ rs.type = "NS"))))
    ∧ (∀ rs ∈ existing, entryName? rs.name = entryName? ev.name →
        (rs.type = "SOA" ∨ rs.type = "NS") → shouldDelete ev rs = false) := by
  have hchar : ∀ rs ∈ existing,
      (shouldDelete ev rs = true ↔
        (¬ ∃ r ∈ ev.records, entryName? r.entry = entryName? rs.name)
        ∧ ¬ (entryName? rs.name = entryName? ev.name
              ∧ (rs.type = "SOA" ∨ rs.type = "NS"))) := by
    intro rs hmem
    have hrsname : rs.name ≠ "" := hex rs hmem
    unfold shouldDelete
    rw [Bool.and_eq_true, decide_eq_true_eq, decide_eq_true_eq,
      hasRecord_false_iff ev.records rs.name hrsname hrecs,
      isDefaultRule_false_iff ev.name rs hname hrsname]
  refine ⟨buildRecordsToRemove_filter_eq ev existing hname hrecs hex, hchar, ?_⟩
  intro rs hmem hn ht
  rcases hsd : shouldDelete ev rs with _ | _
  · rfl
  · exact absurd ⟨hn, ht⟩ ((hchar rs hmem).mp hsd).2

/-- C1 witness: the spec's delete scenario; with an empty desired set the
apex SOA and NS records survive and exactly the `www` record is deleted. -/
theorem buildRecordsToRemove_delete_iff_witness :
    buildRecordsToRemove drainEvent [soaApex, nsApex, wwwRecordSet] =
      some [{ action := "DELETE", resourceRecordSet := wwwRecordSet }] := by
  have h := buildRecordsToRemove_delete_iff drainEvent [soaApex, nsApex, wwwRecordSet]
    (by decide) (by decide) (by decide)
  rw [h.1]
  decide

/-- C2: `buildChanges` is exactly one Upsert per desired record, in input
order, each reconstructed as a full record (name, type, TTL, all values via
`upsertChange`), followed by the Delete changes, whose relative order follows
the remote listing order (they form a sublist of the remote list mapped to
DELETE changes). -/
theorem buildChanges_upserts_then_deletes (ev : Event) (existing : List ResourceRecordSet)
    (dels : List Change) (h : buildRecordsToRemove ev existing = some dels) :
    buildChanges ev existing = some (ev.records.map upsertChange ++ dels)
    ∧ List.Sublist dels (existing.map
        (fun rs => { action := "DELETE", resourceRecordSet := rs })) := by
  constructor
  · unfold buildChanges
    rw [h]
  · exact buildRecordsToRemove_sublist ev existing dels h

/-- C2 witness: the spec's create scenario; one desired A record against the
default apex records yields exactly its Upsert and no Delete. -/
theorem buildChanges_upserts_then_deletes_witness :
    buildChanges provisionEvent [soaApex, nsApex] = some [upsertChange apiRecord] := by
  have h := buildChanges_upserts_then_deletes provisionEvent [soaApex, nsApex] []
    (by decide)
  simpa using h.1

/-- C5: `Validate` checks, in fixed order, vpc id, datacenter region, both
credentials, zone name, returning the first failing check's error without
evaluating later ones; it returns no error exactly when all four conditions
hold, and a command missing both the vpc id and the name reports the VPC-id
error. -/
theorem Validate_first_failure (ev : Event) :
    (Event.Validate ev = none ↔
      ev.vpcID ≠ "" ∧ ev.datacenterRegion ≠ "" ∧ ev.datacenterSecret ≠ ""
        ∧ ev.datacenterToken ≠ "" ∧ ev.name ≠ "")
    ∧ (ev.vpcID = "" → Event.Validate ev = some "Datacenter VPC ID invalid")
    ∧ (ev.vpcID ≠ "" → ev.datacenterRegion = "" →
        Event.Validate ev = some "Datacenter Region invalid")
    ∧ (ev.vpcID ≠ "" → ev.datacenterRegion ≠ "" →
        (ev.datacenterSecret = "" ∨ ev.datacenterToken = "") →
        Event.Validate ev = some "Datacenter credentials invalid")
    ∧ (ev.vpcID ≠ "" → ev.datacenterRegion ≠ "" → ev.datacenterSecret ≠ "" →
        ev.datacenterToken ≠ "" → ev.name = "" →
        Event.Validate ev = some "Route53 zone name invalid") := by
  unfold Event.Validate
  refine ⟨?_, ?_, ?_, ?_, ?_⟩
  · split_ifs <;> simp_all [not_or] <;> tauto
  · intro h1
    simp [h1]
  · intro h1 h2
    simp [h1, h2]
  · intro h1 h2 h3
    simp only [if_neg h1, if_neg h2]
    rw [if_pos h3]
  · intro h1 h2 h3 h4 h5
    simp [h1, h2, h3, h4, h5, not_or]

/-- C5 witness: the zero command misses both the vpc id and the zone name and
reports the VPC-id error, never the zone-name error. -/
theorem Validate_first_failure_witness :
    Event.Validate zeroEvent = some "Datacenter VPC ID invalid" :=
  (Validate_first_failure zeroEvent).2.1 rfl

/-- C6: normalization (`entryName`) strips exactly one trailing dot when one
is present and otherwise returns its argument unchanged; in particular
`example.com.` and `example.com` normalize equal and a double trailing dot
loses only one dot; the record-matching comparison is case-sensitive
(`Example.com` does not match `example.com`). -/
theorem entryName_strip_one_dot :
    (∀ t : String, entryName? (t ++ ".") = some t)
    ∧ (∀ t : String, t ≠ "" → t.toList.getLast? ≠ some '.' → entryName? t = some t)
    ∧ entryName? "example.com." = entryName? "example.com"
    ∧ entryName? "a.." = some "a."
    ∧ Records.HasRecord [{ entry := "Example.com", type := "A", values := [], ttl := 300 }]
        "example.com" = some false := by
  refine ⟨?_, ?_, by decide, by decide, by decide⟩
  · intro t
    unfold entryName?
    have h1 : (t ++ ".").toList = t.toList ++ ['.'] := rfl
    rw [h1, List.getLast?_concat]
    simp [List.dropLast_concat]
  · intro t ht hlast
    unfold entryName?
    rcases h : t.toList.getLast? with _ | c
    · exact absurd ((toList_eq_nil_iff t).mp (by simpa using h)) ht
    · have hc : ¬ c = '.' := fun hc => hlast (by rw [h, hc])
      simp [hc]

/-- C6 witness: stripping the trailing dot of `example.com.`. -/
theorem entryName_strip_one_dot_witness :
    entryName? ("example.com" ++ ".") = some "example.com" :=
  entryName_strip_one_dot.1 "example.com"

/-- C9: `entryName` is partial on the empty string (the Go index of the last
byte is out of range, a panic, embedded as `none`), total on every non-empty
string; consequently `HasRecord`, `isDefaultRule` and the delete computation
panic when a record entry, a remote record name or the zone name is empty,
and are defined whenever all of those are non-empty. -/
theorem entryName_panics_on_empty :
    entryName? "" = none
    ∧ (∀ s : String, s ≠ "" → (entryName? s).isSome = true)
    ∧ Records.HasRecord [{ entry := "", type := "A", values := [], ttl := 1 }] "x" = none
    ∧ Records.HasRecord [{ entry := "a", type := "A", values := [], ttl := 1 }] "" = none
    ∧ isDefaultRule "" { name := "a.", type := "SOA", ttl := 1, resourceRecords := [] } = none
    ∧ isDefaultRule "z" { name := "", type := "SOA", ttl := 1, resourceRecords := [] } = none
    ∧ buildRecordsToRemove zeroEvent
        [{ name := "a.", type := "A", ttl := 1, resourceRecords := [] }] = none
    ∧ (∀ ev existing, ev.name ≠ "" → (∀ r ∈ ev.records, r.entry ≠ "") →
        (∀ rs ∈ existing, rs.name ≠ "") →
        (buildRecordsToRemove ev existing).isSome = true) := by
  refine ⟨by decide, ?_, by decide, by decide, by decide, by decide, by decide, ?_⟩
  · intro s hs
    obtain ⟨t, ht⟩ := entryName?_isSome s hs
    simp [ht]
  · intro ev existing h1 h2 h3
    rw [buildRecordsToRemove_filter_eq ev existing h1 h2 h3]
    rfl

/-- C9 witness: normalization is defined at a concrete non-empty string. -/
theorem entryName_panics_on_empty_witness :
    (entryName? "www.test.com.").isSome = true :=
  entryName_panics_on_empty.2.1 "www.test.com." (by decide)

/-! ### Helper lemmas about the lifecycle transitions -/

lemma updateRoute53_event_eq (p : Provider) (ev ev' : Event) (reqs : List Request)
    (r : Option String) (h : updateRoute53 p ev = some (ev', reqs, r)) : ev' = ev := by
  unfold updateRoute53 getZoneRecords at h
  split at h
  · simp at h
    exact h.1.symm
  · split at h
    · simp at h
    · split at h <;> simp at h <;> exact h.1.symm

lemma updateRoute53_reqs_shape (p : Provider) (ev ev' : Event) (reqs : List Request)
    (r : Option String) (h : updateRoute53 p ev = some (ev', reqs, r)) :
    ∀ q ∈ reqs, q = Request.listResourceRecordSets ev.hostedZoneID ∨
      ∃ cs, q = Request.changeResourceRecordSets ev.hostedZoneID cs := by
  unfold updateRoute53 getZoneRecords at h
  split at h
  · simp at h
    intro q hq
    rw [← h.2.1] at hq
    simp at hq
    left
    exact hq
  · split at h
    · simp at h
    · rename_i zr hzr cs hcs
      split at h <;> simp at h <;> intro q hq <;> rw [← h.2.1] at hq <;>
        simp at hq <;> rcases hq with hq | hq
      · left; exact hq
      · right; exact ⟨cs, hq⟩
      · left; exact hq
      · right; exact ⟨cs, hq⟩

/-- C3: the Delete transition first overwrites the desired record set with the
empty set, then runs the Update transition; on an update failure the error is
returned and the zone-delete request is never issued; only after a successful
update is the zone-delete request issued. -/
theorem deleteRoute53_drains_before_zone_delete (p : Provider) (ev : Event) :
    (∀ ev' reqs e, updateRoute53 p { ev with records := [] } = some (ev', reqs, some e) →
      deleteRoute53 p ev = some (ev', reqs, some e)
      ∧ (∀ z, Request.deleteHostedZone z ∉ reqs)
      ∧ ev'.records = [])
    ∧ (∀ ev' reqs, updateRoute53 p { ev with records := [] } = some (ev', reqs, none) →
      deleteRoute53 p ev = some (ev', reqs ++ [Request.deleteHostedZone ev'.hostedZoneID],
        match p.deleteHostedZone ev'.hostedZoneID with
        | .error e => some e
        | .ok _ => none)) := by
  constructor
  · intro ev' reqs e h
    refine ⟨?_, ?_, ?_⟩
    · unfold deleteRoute53
      rw [h]
    · intro z hz
      rcases updateRoute53_reqs_shape p _ _ _ _ h (Request.deleteHostedZone z) hz with
        hq | ⟨cs, hq⟩ <;> simp at hq
    · rw [updateRoute53_event_eq p _ _ _ _ h]
  · intro ev' reqs h
    unfold deleteRoute53
    rw [h]
    rcases hd : p.deleteHostedZone ev'.hostedZoneID with e | u <;> simp [hd]

/-- Provider fixture for the C3 witness: listing the zone fails. -/
def listFailProvider : Provider :=
  { listResourceRecordSets := fun _ => Except.error "list failed"
    changeResourceRecordSets := fun _ _ => Except.ok ()
    createHostedZone := fun _ => Except.ok "Z1"
    deleteHostedZone := fun _ => Except.ok () }

/-- C3 witness: when the listing step of the drain update fails, the delete
transition returns that error and issues no zone-delete request. -/
theorem deleteRoute53_drains_before_zone_delete_witness :
    deleteRoute53 listFailProvider drainEvent =
      some ({ drainEvent with records := [] },
        [Request.listResourceRecordSets ""], some "list failed")
    ∧ (∀ z, Request.deleteHostedZone z ∉ [Request.listResourceRecordSets ""]) := by
  have h := (deleteRoute53_drains_before_zone_delete listFailProvider drainEvent).1
    { drainEvent with records := [] } [Request.listResourceRecordSets ""] "list failed"
    (by decide)
  exact ⟨h.1, h.2.1⟩

/-- C4: in the Create transition with an initially empty hosted zone id, a
successful create stores the returned zone identity into the command before
the Update transition runs, and every request of that update addresses
exactly the stored identity; a failed create leaves the command unchanged
(hosted zone id still empty) and issues no further request. -/
theorem createRoute53_threads_zone_id (p : Provider) (ev : Event)
    (_h0 : ev.hostedZoneID = "") :
    (∀ e, p.createHostedZone ev.name = Except.error e →
      createRoute53 p ev = some (ev, [Request.createHostedZone ev.name ev.priv], some e))
    ∧ (∀ zid ev' reqs r, p.createHostedZone ev.name = Except.ok zid →
      updateRoute53 p { ev with hostedZoneID := zid } = some (ev', reqs, r) →
      createRoute53 p ev = some (ev', Request.createHostedZone ev.name ev.priv :: reqs, r)
      ∧ ev'.hostedZoneID = zid
      ∧ (∀ q ∈ reqs, q = Request.listResourceRecordSets zid ∨
          ∃ cs, q = Request.changeResourceRecordSets zid cs)) := by
  constructor
  · intro e he
    unfold createRoute53
    rw [he]
  · intro zid ev' reqs r hc hu
    refine ⟨?_, ?_, ?_⟩
    · simp [createRoute53, hc, hu]
    · rw [updateRoute53_event_eq p _ _ _ _ hu]
    · have := updateRoute53_reqs_shape p _ _ _ _ hu
      simpa using this

/-- Provider fixture for the C4 witness: create succeeds with zone id `Z42`,
the subsequent listing and change batch succeed. -/
def createOkProvider : Provider :=
  { listResourceRecordSets := fun _ => Except.ok []
    changeResourceRecordSets := fun _ _ => Except.ok ()
    createHostedZone := fun _ => Except.ok "Z42"
    deleteHostedZone := fun _ => Except.ok () }

/-- C4 witness: a create command (empty hosted zone id) gets the provider's
zone id `Z42` stored and threaded into the update's listing and change-batch
requests. -/
theorem createRoute53_threads_zone_id_witness :
    createRoute53 createOkProvider drainEvent =
      some ({ drainEvent with hostedZoneID := "Z42" },
        [Request.createHostedZone "test.com" false,
         Request.listResourceRecordSets "Z42",
         Request.changeResourceRecordSets "Z42" []], none)
    ∧ ({ drainEvent with hostedZoneID := "Z42" } : Event).hostedZoneID = "Z42" := by
  have h := (createRoute53_threads_zone_id createOkProvider drainEvent rfl).2
    "Z42" { drainEvent with hostedZoneID := "Z42" }
    [Request.listResourceRecordSets "Z42", Request.changeResourceRecordSets "Z42" []]
    none rfl (by decide)
  exact ⟨h.1, h.2.1⟩

/-- C7: on a malformed payload the derived action is the routing key's second
dot-delimited segment, read before decoding; `Process` publishes an error
outcome immediately whose body is the original raw payload bytes unchanged
and returns the decode error, and `eventHandler` then stops: the only
published message is that error outcome, no provider request is issued, and
validation and the lifecycle transitions never run. -/
theorem process_decode_error_publishes_raw (c : Codec) (p : Provider) (subject : String)
    (data : Bytes) (act e : String)
    (hact : secondSegment? subject = some act)
    (hdec : c.unmarshalEvent data { zeroEvent with action := act } = Except.error e) :
    Event.Process c subject data zeroEvent =
      some ({ zeroEvent with action := act },
        [{ subject := "route53." ++ act ++ ".aws.error", body := data }], some e)
    ∧ eventHandler c p subject data =
      some ([{ subject := "route53." ++ act ++ ".aws.error", body := data }], []) := by
  have hproc : Event.Process c subject data zeroEvent =
      some ({ zeroEvent with action := act },
        [{ subject := "route53." ++ act ++ ".aws.error", body := data }], some e) := by
    unfold Event.Process
    rw [hact]
    simp only [hdec]
  refine ⟨hproc, ?_⟩
  unfold eventHandler
  rw [hproc]

/-- Codec fixture for the C7 witness: decoding always fails, marshalling
succeeds. -/
def decodeFailCodec : Codec :=
  { unmarshalEvent := fun _ _ => Except.error "invalid character"
    marshalEvent := fun _ => Except.ok [] }

/-- C7 witness: a malformed payload on `route53.create.aws` produces exactly
one error outcome carrying the raw bytes, and nothing reaches the provider. -/
theorem process_decode_error_publishes_raw_witness :
    eventHandler decodeFailCodec createOkProvider "route53.create.aws" [123, 34, 110] =
      some ([{ subject := "route53.create.aws.error", body := [123, 34, 110] }], []) := by
  have h := process_decode_error_publishes_raw decodeFailCodec createOkProvider
    "route53.create.aws" [123, 34, 110] "create" "invalid character" (by decide) rfl
  exact h.2

/-- C10: when serializing the success outcome fails, `Complete` runs the
failure path, publishing an error outcome with the error message set, and
then still publishes to the done address with the failed serialization's nil
payload, so one command emits both an error and a done outcome.  (Stated
under the assumption that the second serialization, of the mutated event,
succeeds.) -/
theorem complete_publishes_error_then_done (c : Codec) (ev : Event) (e : String) (d : Bytes)
    (h1 : c.marshalEvent ev = Except.error e)
    (h2 : c.marshalEvent { ev with errorMessage := e } = Except.ok d) :
    Event.Complete c ev =
      some ({ ev with errorMessage := e },
        [{ subject := "route53." ++ ev.action ++ ".aws.error", body := d },
         { subject := "route53." ++ ev.action ++ ".aws.done", body := [] }]) := by
  unfold Event.Complete Event.Error
  rw [h1]
  simp only [h2]
  rfl

/-- Codec fixture for the C10 witness: marshalling fails exactly when the
error message is still empty. -/
def marshalFailCodec : Codec :=
  { unmarshalEvent := fun _ ev => Except.ok ev
    marshalEvent := fun ev =>
      if ev.errorMessage = "" then Except.error "marshal fail" else Except.ok [7] }

/-- C10 witness: completing a command whose serialization fails publishes the
error outcome and then the done outcome with an empty body. -/
theorem complete_publishes_error_then_done_witness :
    Event.Complete marshalFailCodec zeroEvent =
      some ({ zeroEvent with errorMessage := "marshal fail" },
        [{ subject := "route53..aws.error", body := [7] },
         { subject := "route53..aws.done", body := [] }]) := by
  have h := complete_publishes_error_then_done marshalFailCodec zeroEvent
    "marshal fail" [7] rfl rfl
  simpa using h

/-! ### JSON round-trip lemmas -/

lemma unmarshalValues_round (vals : List String) :
    unmarshalValuesJ (vals.map JValue.jstr) = some vals := by
  induction vals with
  | nil => rfl
  | cons v vs ih => simp [unmarshalValuesJ, unmarshalValueJ, ih]

lemma unmarshalRecord_round (r : Record) : unmarshalRecordJ (marshalRecordJ r) = some r := by
  unfold unmarshalRecordJ marshalRecordJ
  simp [List.foldlM, setRecordField, unmarshalValues_round]

lemma unmarshalRecords_round (rs : List Record) :
    unmarshalRecordsJ (rs.map marshalRecordJ) = some rs := by
  induction rs with
  | nil => rfl
  | cons r rest ih => simp [unmarshalRecordsJ, unmarshalRecord_round, ih]

/-- C8: decoding a Command from its JSON encoding and re-encoding preserves
every wire-schema field: the round trip through `unmarshalEventJ` recovers
every field (with the non-wire `action` field left at its zero value, so
re-encoding yields the identical JSON object), a `false` private flag is
present in the encoding, absent optional fields (`datacenter_name`,
`error_message`) stay absent, and no `action` key is ever emitted. -/
theorem event_json_round_trip (ev : Event) :
    unmarshalEventJ (marshalEventJ ev) zeroEvent = some { ev with action := "" }
    ∧ marshalEventJ { ev with action := "" } = marshalEventJ ev
    ∧ hasKey (marshalEventJ ev) "action" = false
    ∧ (ev.priv = false → ("private", JValue.jbool false) ∈ marshalEventJ ev)
    ∧ (ev.datacenterName = "" → hasKey (marshalEventJ ev) "datacenter_name" = false)
    ∧ (ev.errorMessage = "" → hasKey (marshalEventJ ev) "error_message" = false) := by
  refine ⟨?_, rfl, ?_, ?_, ?_, ?_⟩
  · by_cases h1 : ev.datacenterName = "" <;> by_cases h2 : ev.errorMessage = "" <;>
      simp [marshalEventJ, unmarshalEventJ, h1, h2, List.foldlM, setEventField,
        unmarshalRecords_round, zeroEvent]
  · by_cases h1 : ev.datacenterName = "" <;> by_cases h2 : ev.errorMessage = "" <;>
      simp [marshalEventJ, hasKey, h1, h2]
  · intro hp
    simp [marshalEventJ, hp]
  · intro h1
    by_cases h2 : ev.errorMessage = "" <;> simp [marshalEventJ, hasKey, h1, h2]
  · intro h2
    by_cases h1 : ev.datacenterName = "" <;> simp [marshalEventJ, hasKey, h1, h2]

/-- A concrete wire command mirroring the repository's test fixture. -/
def testFixtureEvent : Event :=
  { zeroEvent with
    uuid := "test", batchID := "test", providerType := "aws"
    vpcID := "vpc-00000000", datacenterRegion := "eu-west-1"
    datacenterSecret := "key", datacenterToken := "token", name := "test"
    records := [apiRecord] }

/-- C8 witness: the test fixture command (private flag false, optional fields
absent) decodes back from its own encoding, and its encoding carries the
false private flag, no optional keys and no action key. -/
theorem event_json_round_trip_witness :
    unmarshalEventJ (marshalEventJ testFixtureEvent) zeroEvent = some testFixtureEvent
    ∧ ("private", JValue.jbool false) ∈ marshalEventJ testFixtureEvent
    ∧ hasKey (marshalEventJ testFixtureEvent) "action" = false
    ∧ hasKey (marshalEventJ testFixtureEvent) "datacenter_name" = false := by
  have h := event_json_round_trip testFixtureEvent
  exact ⟨h.1, h.2.2.2.1 rfl, h.2.2.1, h.2.2.2.2.1 rfl⟩

end Route53
